import Mathlib

/-!
Shallow embedding of the GitHub-issues → Notion-tasks reconciliation engine
(`src/sync.ts`, `src/action.ts`, `src/properties.ts`) and proofs about it.

Conventions of the embedding:
* TypeScript string values become `String`, arrays become `List`.
* JavaScript numbers are restricted to integers (`Int`); the programs under
  study only handle integral estimates and `String(n)` on an integer agrees
  with `Int` printing.
* A `Record<string, V>` becomes an association list `List (String × V)` with
  last-writer-wins insertion (`recordSet`) and first-hit lookup (`recordGet`),
  matching JavaScript object semantics for the programs' access patterns
  (keys are unique after insertion with overwrite).
* Notion property payloads are the tagged union `NotionProp`.  The switch in
  `extractComparableValue` dispatches on the JavaScript `type` discriminator;
  objects built *without* a `type` key (the code's `properties.status` and
  `properties.person` builders return `{ status: {...} }` resp. `{ people }`
  with no `type` field) are modelled by the dedicated constructors
  `statusUntyped` and `peopleUntyped`, which fall into the `default` branch
  of the switch exactly as an object with `prop.type === undefined` does.
-/

namespace GifNotion

/-- A rich-text run as it appears inside a `title` / `rich_text` property:
`plain_text` (present on values fetched from the Notion API) and
`text.content` (present on values written by this action). -/
structure RichItem where
  plain_text : Option String
  content : Option String
  deriving Repr, DecidableEq

/-- A custom-field value of a GitHub project item: `string | number | null`. -/
inductive FieldValue where
  | str (s : String)
  | num (n : Int)
  | null
  deriving Repr, DecidableEq

/-- JavaScript truthiness of a `string | number | null` value: a string is
truthy iff non-empty, a number iff non-zero, `null` is falsy. -/
def FieldValue.truthy : FieldValue → Bool
  | .str s => s ≠ ""
  | .num n => n ≠ 0
  | .null => false

/-- The tagged union of Notion property values, as inspected by
`extractComparableValue` via its `type` discriminator.  `statusUntyped` and
`peopleUntyped` model the objects produced by `properties.status` and
`properties.person`, which carry no `type` key. -/
inductive NotionProp where
  | title (items : List RichItem)
  | rich_text (items : List RichItem)
  | select (name : Option String)
  | multi_select (names : List String)
  | status (name : Option String)
  | number (v : FieldValue)
  | url (u : Option String)
  | relation (ids : List String)
  | people (ids : List String)
  | date (start : Option String)
  | checkbox (b : Bool)
  | email (e : Option String)
  | phone_number (p : Option String)
  | statusUntyped (name : String)
  | peopleUntyped (ids : List String)
  deriving Repr, DecidableEq

/-- Lexicographic code-point comparison of character lists: the order
JavaScript's default string comparison (`<` on strings, hence the default
`Array.prototype.sort()`) induces on the property payloads compared here. -/
def charListLe : List Char → List Char → Bool
  | [], _ => true
  | _ :: _, [] => false
  | a :: as, b :: bs =>
    if a.toNat < b.toNat then true
    else if b.toNat < a.toNat then false
    else charListLe as bs

/-- JavaScript string comparison `a <= b`. -/
def strLe (a b : String) : Bool :=
  charListLe a.data b.data

/-- Ordered insertion of a string into a sorted list (ascending). -/
def insertStr (x : String) : List String → List String
  | [] => [x]
  | y :: ys => if strLe x y then x :: y :: ys else y :: insertStr x ys

/-- JavaScript `Array.prototype.sort()` on strings: stable insertion sort
by code-point order. -/
def sortStrings (l : List String) : List String :=
  l.foldr insertStr []

/-- `t.plain_text ?? t.text?.content ?? ''` for one rich-text run. -/
def richItemText (t : RichItem) : String :=
  match t.plain_text with
  | some s => s
  | none => match t.content with
    | some s => s
    | none => ""

/-- `extractComparableValue` (src/sync.ts): kind-specific canonical string of
a property value; unknown / untagged shapes fall to the default branch `''`.
(The `if (!prop) return ''` guard is handled at the call site in
`needsNotionPageUpdate`, where a missing property returns `true` first.) -/
def extractComparableValue : NotionProp → String
  | .title items => String.intercalate " " (items.map richItemText)
  | .rich_text items => String.intercalate " " (items.map richItemText)
  | .select name => name.getD ""
  | .multi_select names => String.intercalate "," (sortStrings names)
  | .status name => name.getD ""
  | .number v => match v with
    | .num n => toString n
    | _ => ""
  | .url u => u.getD ""
  | .relation ids => String.intercalate "," (sortStrings ids)
  | .people ids => String.intercalate "," (sortStrings ids)
  | .date start => start.getD ""
  | .checkbox b => toString b
  | .email e => e.getD ""
  | .phone_number p => p.getD ""
  | .statusUntyped _ => ""
  | .peopleUntyped _ => ""

/-- A property map: Notion page properties or a computed `CustomValueMap`. -/
abbrev PropMap := List (String × NotionProp)

/-- First-hit lookup in a property map (JavaScript `obj[key]`; keys are
unique in the maps this program builds and receives). -/
def lookupProp (m : PropMap) (key : String) : Option NotionProp :=
  (m.find? (fun kv => kv.1 == key)).map (·.2)

/-- `needsNotionPageUpdate` (src/sync.ts): for each key of `newProperties`,
report `true` if the existing page lacks the property or the canonical
strings differ; `false` when every listed property matches. -/
def needsNotionPageUpdate (existingProps : PropMap) (newProperties : PropMap) : Bool :=
  newProperties.any (fun kv =>
    match lookupProp existingProps kv.1 with
    | none => true
    | some existingProp =>
      extractComparableValue kv.2 != extractComparableValue existingProp)

/-! ## Upstream data model (src/sync.ts, src/action.ts) -/

/-- A GitHub issue as delivered by the GraphQL query in `getGitHubIssues`
(src/sync.ts); labels and assignees are flattened to their `name` / `login`
strings, `repository { url }` to `repositoryUrl`. -/
structure GitHubIssue where
  number : Int
  title : String
  state : String
  body : Option String
  repositoryUrl : String
  html_url : String
  assignees : List String
  labels : List String
  deriving Repr, DecidableEq

/-- One `fieldValues` node of a project item: at most one of the `name`
(single-select), `text`, `number` variants is populated, plus the field's
name (absent when the inline fragments did not match). -/
structure FieldValueNode where
  fieldName : Option String
  name : Option String
  text : Option String
  number : Option Int
  deriving Repr, DecidableEq

/-- One `items` node of a projectV2: the embedded issue number (none when
`content` is null or not an Issue) and the field values. -/
structure ProjectItemNode where
  contentIssueNumber : Option Int
  fieldValues : List FieldValueNode
  deriving Repr, DecidableEq

/-- One `projectsV2` node returned by the GraphQL query in `getProject`. -/
structure QueryProject where
  number : Int
  title : String
  url : String
  items : List ProjectItemNode
  deriving Repr, DecidableEq

/-- `ProjectData` (src/action.ts): the matched project's title, url and
normalized custom-field record. -/
structure ProjectData where
  name : String
  url : String
  customFields : List (String × FieldValue)
  deriving Repr, DecidableEq

/-- Last-writer-wins insertion into a string-keyed record
(`customFields[fieldName] = value`). -/
def recordSet (r : List (String × FieldValue)) (k : String) (v : FieldValue) :
    List (String × FieldValue) :=
  if r.any (fun kv => kv.1 == k) then
    r.map (fun kv => if kv.1 == k then (k, v) else kv)
  else r ++ [(k, v)]

/-- Record lookup (`customFields['Estimate']` etc.). -/
def recordGet (r : List (String × FieldValue)) (k : String) : Option FieldValue :=
  (r.find? (fun kv => kv.1 == k)).map (·.2)

/-- The `let value` chain in `getProject`: prefer `number`, then `text`,
then `name`; otherwise `null`. -/
def extractFieldValue (fv : FieldValueNode) : FieldValue :=
  match fv.number with
  | some n => .num n
  | none => match fv.text with
    | some t => .str t
    | none => match fv.name with
      | some s => .str s
      | none => .null

/-- The custom-field record built from one item's field values
(`if (fieldName) customFields[fieldName] = value`). -/
def buildCustomFields (fvs : List FieldValueNode) : List (String × FieldValue) :=
  fvs.foldl (fun acc fv =>
    match fv.fieldName with
    | some fn => if fn ≠ "" then recordSet acc fn (extractFieldValue fv) else acc
    | none => acc) []

/-- Ordered insertion of a project by ascending `number` (stable). -/
def insertProject (p : QueryProject) : List QueryProject → List QueryProject
  | [] => [p]
  | q :: qs => if p.number ≤ q.number then p :: q :: qs else q :: insertProject p qs

/-- `queryProjects.sort((a, b) => a.number - b.number)`: stable ascending
sort by project number. -/
def sortProjects (l : List QueryProject) : List QueryProject :=
  l.foldr insertProject []

/-- The nested `for` loops of `getProject`: return the data of the first
project (in the given order) holding an item whose content matches the
issue number. -/
def findProjectForIssue (issueNumber : Int) : List QueryProject → Option ProjectData
  | [] => none
  | p :: rest =>
    match p.items.find? (fun it => it.contentIssueNumber == some issueNumber) with
    | some item => some ⟨p.title, p.url, buildCustomFields item.fieldValues⟩
    | none => findProjectForIssue issueNumber rest

/-- `getProject` (src/action.ts): after fully draining pagination the
fetched projects (`queryProjects`, here a parameter) are sorted by project
number ascending and the first project containing the issue is returned. -/
def getProject (queryProjects : List QueryProject) (issueNumber : Int) :
    Option ProjectData :=
  findProjectForIssue issueNumber (sortProjects queryProjects)

/-! ## Status rule engine -/

/-- JavaScript `String.prototype.toLowerCase()` on the ASCII label names
this program compares (character-wise lower-casing). -/
def strToLower (s : String) : String :=
  String.mk (s.data.map Char.toLower)

/-- `getNotionStatusFromGithubIssue` (src/sync.ts).  The result models the
TypeScript `string | null` return; the final branch returns the raw
custom-field value (`as string` casts the type only), hence `FieldValue`. -/
def getNotionStatusFromGithubIssue (issue : GitHubIssue)
    (githubProject : Option ProjectData) : Option FieldValue :=
  if issue.state == "CLOSED" then some (.str "Done")
  else if issue.labels.any (fun l => strToLower l == "blocked") then some (.str "Blocked")
  else if issue.labels.any (fun l => strToLower l == "duplicate") then some (.str "Duplicate")
  else match githubProject with
    | some p =>
      match recordGet p.customFields "Status" with
      | some v => if v.truthy then some v else none
      | none => none
    | none => none

/-! ## Property builders (src/properties.ts) -/

/-- Relation-table row: GitHub username ↔ Notion user id. -/
structure UserRelation where
  githubUsername : String
  notionUserId : String
  deriving Repr, DecidableEq

/-- Relation-table row: Notion project page id and its `Project KEY`. -/
structure NotionProjectInfo where
  id : String
  projectKey : String
  deriving Repr, DecidableEq

/-- The resolved relation tables (`NotionRelationsInterface`). -/
structure NotionRelations where
  users : List UserRelation
  projects : List NotionProjectInfo
  deriving Repr, DecidableEq

/-- Modelled from the spec: `common.richText` (file `src/common.ts` is not
part of the sources provided) turns a plain string into rich-text runs; per
§4.7 the canonical form of rich text is the concatenation of text-run
contents, so it is modelled as a single text run whose content is the
string. -/
def commonRichText (text : String) : List RichItem :=
  [⟨none, some text⟩]

/-- `properties.text`: `rich_text: text ? common.richText(text) : []`. -/
def propText (text : String) : NotionProp :=
  .rich_text (if text ≠ "" then commonRichText text else [])

/-- `properties.title`: one text run with `text.content` (no `plain_text`). -/
def propTitle (text : String) : NotionProp :=
  .title [⟨none, some text⟩]

/-- `properties.number`: the value passes through an `as number` cast, so a
string stored in the Estimate field survives into the payload. -/
def propNumber (v : FieldValue) : NotionProp :=
  .number v

/-- `properties.url`. -/
def propUrl (u : String) : NotionProp :=
  .url (some u)

/-- `properties.person`: each GitHub username is looked up in the user
relation table and pushed when matched; the returned object carries no
`type` key. -/
def propPerson (githubUsernames : List String) (userRelations : List UserRelation) :
    NotionProp :=
  .peopleUntyped (githubUsernames.foldl (fun people u =>
    match userRelations.find? (fun r => r.githubUsername == u) with
    | some r => people ++ [r.notionUserId]
    | none => people) [])

/-- `properties.relation`: the (cast) `Project KEY` value is compared with
`===` against each Notion project's key; a match contributes a single
relation id, otherwise the relation list is empty. -/
def propRelation (projectKey : FieldValue) (notionProjects : List NotionProjectInfo) :
    NotionProp :=
  match notionProjects.find? (fun p => projectKey == FieldValue.str p.projectKey) with
  | some p => if p.id ≠ "" then .relation [p.id] else .relation []
  | none => .relation []

/-- `properties.status`: switch with `===` string comparison; any other
value (including `null`, numbers and unrecognized strings) falls to the
`default` branch `Not started`.  The returned object has no `type` key. -/
def propStatus (githubStatus : Option FieldValue) : NotionProp :=
  match githubStatus with
  | some (.str s) =>
    if s = "In progress" then .statusUntyped "In progress"
    else if s = "Done" then .statusUntyped "Done"
    else if s = "In review" then .statusUntyped "To be checked"
    else if s = "Blocked" then .statusUntyped "Blocked"
    else if s = "Duplicate" then .statusUntyped "Discarded"
    else .statusUntyped "Not started"
  | _ => .statusUntyped "Not started"

/-- The option name carried by a written status property. -/
def statusName : NotionProp → String
  | .statusUntyped n => n
  | .status n => n.getD ""
  | _ => ""

/-! ## Value mapper (src/sync.ts `getPropertiesFromIssueOrGithubProject`) -/

/-- JavaScript `String.prototype.split` with a one-character separator. -/
def splitOnChar (c : Char) (s : String) : List String :=
  (s.toList.foldr (fun ch acc =>
    match acc with
    | [] => if ch = c then [[], []] else [[ch]]
    | g :: gs => if ch = c then [] :: g :: gs else (ch :: g) :: gs) [[]]).map
    (fun l => String.mk l)

/-- JavaScript `Array.prototype.slice(-2)`: the last two elements. -/
def sliceLast2 (l : List String) : List String :=
  l.drop (l.length - 2)

/-- The mirror task table's property names (`notionFields`). -/
def notionFields.Name : String := "Name"
def notionFields.Description : String := "Description"
def notionFields.Status : String := "Status"
def notionFields.Repository : String := "Github repository"
def notionFields.Assignee : String := "Assignee"
def notionFields.GithubIssue : String := "Github issue"
def notionFields.Project : String := "Project"
def notionFields.TaskGroup : String := "Task group"
def notionFields.EstimateHrs : String := "Estimate hrs"

/-- `getPropertiesFromIssueOrGithubProject` (src/sync.ts): builds the
`CustomValueMap` for one issue.  The GitHub project for the issue is what
`getProject` resolves from the fetched `queryProjects` (a parameter here;
the repo string it derives feeds only that fetch).  `repo` is the second
segment of the repository's full name; the optional `Estimate hrs` entry is
added only when the matched project's `Estimate` field value is truthy. -/
def getPropertiesFromIssueOrGithubProject (issue : GitHubIssue)
    (notionRelations : NotionRelations) (queryProjects : List QueryProject) :
    PropMap :=
  let repositoryFullName :=
    String.intercalate "/" (sliceLast2 (splitOnChar '/' issue.repositoryUrl))
  let repo := (splitOnChar '/' repositoryFullName).getD 1 ""
  let project := getProject queryProjects issue.number
  let projectKey : FieldValue :=
    match project with
    | some p => (recordGet p.customFields "Project KEY").getD .null
    | none => .null
  let valueMap : PropMap :=
    [(notionFields.Name, propTitle issue.title),
     (notionFields.Description, propText (issue.body.getD "")),
     (notionFields.Status, propStatus (getNotionStatusFromGithubIssue issue project)),
     (notionFields.Repository, propText repo),
     (notionFields.Assignee, propPerson issue.assignees notionRelations.users),
     (notionFields.GithubIssue, propUrl issue.html_url),
     (notionFields.Project, propRelation projectKey notionRelations.projects),
     (notionFields.TaskGroup, propText "Development")]
  match project with
  | some p =>
    match recordGet p.customFields "Estimate" with
    | some v =>
      if v.truthy then valueMap ++ [(notionFields.EstimateHrs, propNumber v)]
      else valueMap
    | none => valueMap
  | none => valueMap

/-! ## Reconciler (src/sync.ts `createOrUpdateTasksInNotion`) -/

/-- An existing Notion task page: id and property map (value-kind tagged,
as fetched from the mirror store). -/
structure NotionPage where
  id : String
  properties : PropMap
  deriving Repr, DecidableEq

/-- Per page, the `Github issue` url property's value, or `''` when
absent / not a url / empty (the mapped body of `getTaskIssueUrls`). -/
def taskIssueUrlOf (page : NotionPage) : String :=
  match lookupProp page.properties notionFields.GithubIssue with
  | some (.url u) => u.getD ""
  | _ => ""

/-- `getTaskIssueUrls` (src/sync.ts). -/
def getTaskIssueUrls (issuePages : List NotionPage) : List String :=
  issuePages.map taskIssueUrlOf

/-- A mirror write operation issued by the reconciler. -/
inductive WriteOp where
  | create (props : PropMap)
  | update (pageId : String) (props : PropMap)
  deriving Repr, DecidableEq

/-- The body of the `for (const issue of issues)` loop in
`createOrUpdateTasksInNotion`: the write operations issued for one issue.
A tracked url is diffed against the page at the url's first index; an
untracked open issue is created; an untracked closed issue is skipped. -/
def processIssue (issuePages : List NotionPage) (notionRelations : NotionRelations)
    (queryProjects : List QueryProject) (issue : GitHubIssue) : List WriteOp :=
  let taskIssueUrls := getTaskIssueUrls issuePages
  let props := getPropertiesFromIssueOrGithubProject issue notionRelations queryProjects
  if taskIssueUrls.contains issue.html_url then
    match issuePages.get? (taskIssueUrls.indexOf issue.html_url) with
    | some page =>
      if needsNotionPageUpdate page.properties props then [.update page.id props]
      else []
    | none => []
  else if issue.state != "CLOSED" then [.create props]
  else []

/-- `createOrUpdateTasksInNotion` as a pure trace of write operations:
the issues are processed strictly in order, each contributing the writes of
`processIssue`. -/
def createOrUpdateTasksInNotion (issuePages : List NotionPage)
    (notionRelations : NotionRelations) (queryProjects : List QueryProject)
    (issues : List GitHubIssue) : List WriteOp :=
  issues.flatMap (processIssue issuePages notionRelations queryProjects)

/-- The reconciliation loop with fallible writes: `wf` tells whether a
mirror write succeeds.  Each issue's writes are awaited in order inside the
plain `for` loop of `createOrUpdateTasksInNotion`; there is no `try`/`catch`
around them, so the first rejected write propagates out of the loop and the
run aborts.  Returns the writes actually performed and whether the run
aborted. -/
def runMirrorWrites (wf : WriteOp → Bool) (issuePages : List NotionPage)
    (notionRelations : NotionRelations) (queryProjects : List QueryProject) :
    List GitHubIssue → List WriteOp × Bool
  | [] => ([], false)
  | issue :: rest =>
    let ops := processIssue issuePages notionRelations queryProjects issue
    if ops.all wf then
      let r := runMirrorWrites wf issuePages notionRelations queryProjects rest
      (ops ++ r.1, r.2)
    else (ops.takeWhile wf, true)

/-! ## Mirror store echo -/

/-- `plain_text` of a stored rich-text run, as the mirror store reports it
back: the rendered content of the run. -/
def fillPlain (t : RichItem) : RichItem :=
  ⟨some (richItemText t), t.content⟩

/-- Modelled from the spec: the mirror store holds a property map "each
value tagged with its value-kind" (§3) and the reader fetches records
"paginated by the mirror system's own cursor mechanism" (§4.3).  A value
written by `createRecord`/`updateRecord` therefore comes back value-kind
tagged with the same payload: status and people payloads written without a
`type` key are fetched as `status` / `people` tagged values, and rich-text
runs come back with `plain_text` populated. -/
def roundTrip : NotionProp → NotionProp
  | .statusUntyped name => .status (some name)
  | .peopleUntyped ids => .people ids
  | .title items => .title (items.map fillPlain)
  | .rich_text items => .rich_text (items.map fillPlain)
  | p => p

/-- The mirror record created from a written property map: same payloads,
value-kind tagged. -/
def roundTripProps (m : PropMap) : PropMap :=
  m.map (fun kv => (kv.1, roundTrip kv.2))

/-! ## Concrete fixtures for witnesses and counterexamples -/

/-- Open issue #42, one assignee, no labels. -/
def issOpen : GitHubIssue :=
  { number := 42, title := "Fix the widget", state := "OPEN",
    body := some "It is broken.",
    repositoryUrl := "https://api.github.com/repos/acme/widgets",
    html_url := "https://github.com/acme/widgets/issues/42",
    assignees := ["alice"], labels := [] }

/-- Closed issue #7, never tracked. -/
def issClosed : GitHubIssue :=
  { number := 7, title := "Old bug", state := "CLOSED", body := none,
    repositoryUrl := "https://api.github.com/repos/acme/widgets",
    html_url := "https://github.com/acme/widgets/issues/7",
    assignees := [], labels := [] }

/-- Closed issue carrying a `blocked` label. -/
def issClosedBlocked : GitHubIssue :=
  { number := 8, title := "Blocked then closed", state := "CLOSED", body := none,
    repositoryUrl := "https://api.github.com/repos/acme/widgets",
    html_url := "https://github.com/acme/widgets/issues/8",
    assignees := [], labels := ["blocked"] }

/-- Open issue carrying a `Duplicate` label (mixed case) and nothing else. -/
def issDup : GitHubIssue :=
  { number := 9, title := "Dup", state := "OPEN", body := none,
    repositoryUrl := "https://api.github.com/repos/acme/widgets",
    html_url := "https://github.com/acme/widgets/issues/9",
    assignees := [], labels := ["Duplicate"] }

/-- Open issue #43, one assignee, no labels. -/
def issOpen43 : GitHubIssue :=
  { number := 43, title := "Another widget", state := "OPEN", body := some "Also broken.",
    repositoryUrl := "https://api.github.com/repos/acme/widgets",
    html_url := "https://github.com/acme/widgets/issues/43",
    assignees := ["alice"], labels := [] }

/-- Relation tables: alice ↔ `u-1`, project key `KEY` ↔ page `p-1`. -/
def relsA : NotionRelations :=
  { users := [⟨"alice", "u-1"⟩], projects := [⟨"p-1", "KEY"⟩] }

/-- A project item for issue 42 with `Status`, `Project KEY` and an
optional numeric `Estimate`. -/
def itemFor42 (est : Option Int) : ProjectItemNode :=
  { contentIssueNumber := some 42,
    fieldValues :=
      [⟨some "Status", some "In progress", none, none⟩,
       ⟨some "Project KEY", none, some "KEY", none⟩] ++
      (match est with
       | some e => [⟨some "Estimate", none, none, some e⟩]
       | none => [⟨some "Estimate", none, none, none⟩]) }

/-- One project, number 1, containing issue 42 with estimate 3. -/
def qpsA : List QueryProject :=
  [{ number := 1, title := "P1", url := "https://example.org/p1",
     items := [itemFor42 (some 3)] }]

/-- Three projects, numbers 1, 2, 3, all containing issue 42, with
estimates 3, null, 7 respectively. -/
def qpsEst : List QueryProject :=
  [{ number := 1, title := "P1", url := "https://example.org/p1",
     items := [itemFor42 (some 3)] },
   { number := 2, title := "P2", url := "https://example.org/p2",
     items := [itemFor42 none] },
   { number := 3, title := "P3", url := "https://example.org/p3",
     items := [itemFor42 (some 7)] }]

/-- Matched project data whose custom `Status` is the unrecognized value
`Backlog`. -/
def pdBacklog : ProjectData :=
  { name := "PB", url := "https://example.org/pb",
    customFields := [("Status", .str "Backlog")] }

/-- The property map the first reconciliation run writes for `issOpen`. -/
def targetC1 : PropMap :=
  getPropertiesFromIssueOrGithubProject issOpen relsA qpsA

/-- The mirror record holding what the first run wrote for `issOpen`. -/
def pageC1 : NotionPage :=
  { id := "page-1", properties := roundTripProps targetC1 }

/-- A mirror record tracking some other issue. -/
def pageOther : NotionPage :=
  { id := "page-0",
    properties := [(notionFields.GithubIssue,
      .url (some "https://github.com/acme/widgets/issues/999"))] }

/-- A mirror record with the same issue url as `pageC1` but a different id
and different property values: a duplicate external identifier. -/
def pageDup : NotionPage :=
  { id := "page-2",
    properties := [(notionFields.GithubIssue,
      .url (some "https://github.com/acme/widgets/issues/42"))] }

/-- Diff-engine fixture: a target listing a status and a multi-select. -/
def tgtC2 : PropMap :=
  [("Status", .status (some "Done")),
   ("Tags", .multi_select ["bug", "urgent"])]

/-- Diff-engine fixture: an existing record matching `tgtC2` (multi-select
stored in the other order) plus an extra property not listed in the target. -/
def exC2 : PropMap :=
  [("Status", .status (some "Done")),
   ("Tags", .multi_select ["urgent", "bug"]),
   ("Other", .url (some "https://example.org"))]

/-- Diff-engine fixture: `exC2` without the extra unlisted property. -/
def exC2' : PropMap :=
  [("Status", .status (some "Done")),
   ("Tags", .multi_select ["urgent", "bug"])]

/-! ## Theorems -/

/-! Order-theoretic facts about the code-point comparison, feeding the
multi-select / relation / people canonicalization results. -/

theorem charListLe_cons (x y : Char) (xs ys : List Char) :
    charListLe (x :: xs) (y :: ys) =
      (if x.toNat < y.toNat then true
       else if y.toNat < x.toNat then false
       else charListLe xs ys) := rfl

theorem charListLe_total : ∀ a b, charListLe a b = true ∨ charListLe b a = true := by
  intro a
  induction a with
  | nil => intro b; left; rfl
  | cons c cs ih =>
    intro b
    cases b with
    | nil => right; rfl
    | cons d ds =>
      rw [charListLe_cons, charListLe_cons]
      rcases Nat.lt_trichotomy c.toNat d.toNat with h | h | h
      · left; simp [h]
      · have h1 : ¬ c.toNat < d.toNat := by omega
        have h2 : ¬ d.toNat < c.toNat := by omega
        rw [if_neg h1, if_neg h2, if_neg h2, if_neg h1]
        exact ih ds
      · right; simp [h]

theorem charListLe_antisymm :
    ∀ a b, charListLe a b = true → charListLe b a = true → a = b := by
  intro a
  induction a with
  | nil =>
    intro b _ hba
    cases b with
    | nil => rfl
    | cons d ds => simp [charListLe] at hba
  | cons c cs ih =>
    intro b hab hba
    cases b with
    | nil => simp [charListLe] at hab
    | cons d ds =>
      rw [charListLe_cons] at hab hba
      rcases Nat.lt_trichotomy c.toNat d.toNat with h | h | h
      · have h2 : ¬ d.toNat < c.toNat := by omega
        rw [if_neg h2, if_pos h] at hba
        exact absurd hba (by decide)
      · have h1 : ¬ c.toNat < d.toNat := by omega
        have h2 : ¬ d.toNat < c.toNat := by omega
        rw [if_neg h1, if_neg h2] at hab
        rw [if_neg h2, if_neg h1] at hba
        have hc : c = d := Char.eq_of_val_eq (UInt32.ext h)
        rw [hc, ih ds hab hba]
      · have h1 : ¬ c.toNat < d.toNat := by omega
        rw [if_neg h1, if_pos h] at hab
        exact absurd hab (by decide)

theorem charListLe_trans :
    ∀ a b c, charListLe a b = true → charListLe b c = true →
      charListLe a c = true := by
  intro a
  induction a with
  | nil => intro b c _ _; rfl
  | cons x xs ih =>
    intro b c hab hbc
    cases b with
    | nil => simp [charListLe] at hab
    | cons y ys =>
      cases c with
      | nil => simp [charListLe] at hbc
      | cons z zs =>
        rw [charListLe_cons] at hab hbc ⊢
        rcases Nat.lt_trichotomy x.toNat y.toNat with h1 | h1 | h1
        · rcases Nat.lt_trichotomy y.toNat z.toNat with h2 | h2 | h2
          · rw [if_pos (by omega)]
          · rw [if_pos (by omega)]
          · have hy : ¬ y.toNat < z.toNat := by omega
            rw [if_neg hy, if_pos h2] at hbc
            exact absurd hbc (by decide)
        · rcases Nat.lt_trichotomy y.toNat z.toNat with h2 | h2 | h2
          · rw [if_pos (by omega)]
          · have e1 : ¬ x.toNat < z.toNat := by omega
            have e2 : ¬ z.toNat < x.toNat := by omega
            rw [if_neg e1, if_neg e2]
            rw [if_neg (by omega : ¬ x.toNat < y.toNat),
              if_neg (by omega : ¬ y.toNat < x.toNat)] at hab
            rw [if_neg (by omega : ¬ y.toNat < z.toNat),
              if_neg (by omega : ¬ z.toNat < y.toNat)] at hbc
            exact ih ys zs hab hbc
          · have hy : ¬ y.toNat < z.toNat := by omega
            rw [if_neg hy, if_pos h2] at hbc
            exact absurd hbc (by decide)
        · have hx : ¬ x.toNat < y.toNat := by omega
          rw [if_neg hx, if_pos h1] at hab
          exact absurd hab (by decide)

theorem strLe_total (a b : String) : strLe a b = true ∨ strLe b a = true :=
  charListLe_total a.data b.data

theorem strLe_antisymm {a b : String} (hab : strLe a b = true)
    (hba : strLe b a = true) : a = b := by
  cases a; cases b
  exact congrArg String.mk (charListLe_antisymm _ _ hab hba)

theorem strLe_trans {a b c : String} (hab : strLe a b = true)
    (hbc : strLe b c = true) : strLe a c = true :=
  charListLe_trans a.data b.data c.data hab hbc

theorem insertStr_perm (x : String) (l : List String) :
    (insertStr x l).Perm (x :: l) := by
  induction l with
  | nil => exact List.Perm.refl _
  | cons y ys ih =>
    unfold insertStr
    by_cases h : strLe x y = true
    · rw [if_pos h]
    · rw [if_neg h]
      exact (ih.cons y).trans (List.Perm.swap x y ys)

theorem sortStrings_perm (l : List String) : (sortStrings l).Perm l := by
  induction l with
  | nil => exact List.Perm.refl _
  | cons x xs ih =>
    exact (insertStr_perm x (sortStrings xs)).trans (ih.cons x)

theorem insertStr_pairwise (x : String) (l : List String)
    (h : l.Pairwise (fun a b => strLe a b = true)) :
    (insertStr x l).Pairwise (fun a b => strLe a b = true) := by
  induction l with
  | nil => simp [insertStr]
  | cons y ys ih =>
    unfold insertStr
    rcases List.pairwise_cons.mp h with ⟨hy, hys⟩
    by_cases hxy : strLe x y = true
    · rw [if_pos hxy]
      refine List.pairwise_cons.mpr ⟨?_, h⟩
      intro b hb
      rcases List.mem_cons.mp hb with rfl | hbys
      · exact hxy
      · exact strLe_trans hxy (hy b hbys)
    · rw [if_neg hxy]
      have hyx : strLe y x = true := (strLe_total x y).resolve_left hxy
      refine List.pairwise_cons.mpr ⟨?_, ih hys⟩
      intro b hb
      have hb' : b ∈ x :: ys := (insertStr_perm x ys).mem_iff.mp hb
      rcases List.mem_cons.mp hb' with rfl | hbys
      · exact hyx
      · exact hy b hbys

theorem sortStrings_pairwise (l : List String) :
    (sortStrings l).Pairwise (fun a b => strLe a b = true) := by
  induction l with
  | nil => exact List.Pairwise.nil
  | cons x xs ih => exact insertStr_pairwise x (sortStrings xs) ih

theorem sortStrings_eq_of_perm {l l' : List String} (h : l.Perm l') :
    sortStrings l = sortStrings l' :=
  @List.eq_of_perm_of_sorted String (fun a b => strLe a b = true)
    ⟨fun _ _ hab hba => strLe_antisymm hab hba⟩ _ _
    ((sortStrings_perm l).trans (h.trans (sortStrings_perm l').symm))
    (sortStrings_pairwise l) (sortStrings_pairwise l')

/-- The diff verdict `false` means: every target-listed field exists on the
existing record and matches canonically. -/
theorem needsNotionPageUpdate_eq_false_iff (ex tgt : PropMap) :
    needsNotionPageUpdate ex tgt = false ↔
      ∀ kv ∈ tgt, ∃ w, lookupProp ex kv.1 = some w ∧
        extractComparableValue kv.2 = extractComparableValue w := by
  unfold needsNotionPageUpdate
  rw [← Bool.not_eq_true, List.any_eq_true]
  push_neg
  constructor
  · intro h kv hkv
    have hne := h kv hkv
    cases hl : lookupProp ex kv.1 with
    | none => rw [hl] at hne; simp at hne
    | some w =>
      rw [hl] at hne
      exact ⟨w, rfl, by simpa [bne] using hne⟩
  · intro h kv hkv
    obtain ⟨w, hw, heq⟩ := h kv hkv
    rw [hw]
    simp [bne, heq]

/-- The diff verdict only reads the existing record at the target's keys. -/
theorem needsNotionPageUpdate_congr (ex ex' tgt : PropMap)
    (h : ∀ kv ∈ tgt, lookupProp ex kv.1 = lookupProp ex' kv.1) :
    needsNotionPageUpdate ex tgt = needsNotionPageUpdate ex' tgt := by
  unfold needsNotionPageUpdate
  induction tgt with
  | nil => rfl
  | cons kv rest ih =>
    simp only [List.any_cons]
    rw [h kv (List.mem_cons_self kv rest),
      ih (fun kv' h' => h kv' (List.mem_cons_of_mem _ h'))]

/-- Claim C2.  `needsWrite` characterization: `false` iff every field listed in
the target exists on the existing record with an equal kind-specific
canonical string (multi-select canonicalized order-insensitively — any
permutation of the option names compares equal; status as the option name
or empty; number as the decimal string or empty); `true` as soon as a
target-listed field is missing on the existing side or a canonical string
differs; and fields absent from the target are never compared — the verdict
depends only on the existing record's values at the target's keys. -/
theorem needsWrite_characterization (ex ex' tgt : PropMap)
    (ns ns' : List String) (hperm : ns.Perm ns')
    (hagree : ∀ kv ∈ tgt, lookupProp ex kv.1 = lookupProp ex' kv.1) :
    (needsNotionPageUpdate ex tgt = false ↔
      ∀ kv ∈ tgt, ∃ w, lookupProp ex kv.1 = some w ∧
        extractComparableValue kv.2 = extractComparableValue w) ∧
    extractComparableValue (.multi_select ns)
      = extractComparableValue (.multi_select ns') ∧
    (∀ n : String, extractComparableValue (.status (some n)) = n) ∧
    extractComparableValue (.status none) = "" ∧
    (∀ i : Int, extractComparableValue (.number (.num i)) = toString i) ∧
    extractComparableValue (.number .null) = "" ∧
    needsNotionPageUpdate ex tgt = needsNotionPageUpdate ex' tgt := by
  refine ⟨needsNotionPageUpdate_eq_false_iff ex tgt, ?_,
    fun n => rfl, rfl, fun i => rfl, rfl,
    needsNotionPageUpdate_congr ex ex' tgt hagree⟩
  show String.intercalate "," (sortStrings ns) = String.intercalate "," (sortStrings ns')
  rw [sortStrings_eq_of_perm hperm]

/-- Claim C2, witness: on the concrete fixtures, a fully matching target (with the
multi-select stored in the other order) satisfies the per-field
characterization, `{bug, urgent}` and `{urgent, bug}` canonicalize equally,
and dropping the unlisted `Other` property does not change the verdict. -/
theorem needsWrite_characterization_witness :
    (∀ kv ∈ tgtC2, ∃ w, lookupProp exC2 kv.1 = some w ∧
      extractComparableValue kv.2 = extractComparableValue w) ∧
    extractComparableValue (.multi_select ["bug", "urgent"])
      = extractComparableValue (.multi_select ["urgent", "bug"]) ∧
    needsNotionPageUpdate exC2 tgtC2 = needsNotionPageUpdate exC2' tgtC2 := by
  have h := needsWrite_characterization exC2 exC2' tgtC2
    ["bug", "urgent"] ["urgent", "bug"] (by decide) (by decide)
  exact ⟨h.1.mp (by decide), h.2.1, h.2.2.2.2.2.2⟩

/-- Claim C6, counterexample: `issOpen` (#42) is matched to three projects with
estimates {3, null, 7}; the written estimate is 3 — the first project's
value in project-number order — not the maximum 7 claimed. -/
theorem estimate_not_maximum_cex :
    lookupProp (getPropertiesFromIssueOrGithubProject issOpen relsA qpsEst)
      notionFields.EstimateHrs = some (.number (.num 3)) ∧
    some (NotionProp.number (.num 3)) ≠ some (NotionProp.number (.num 7)) := by
  exact ⟨by decide, by decide⟩

/-- Claim C6, amended.  The numeric estimate of the target property set comes
from the single representative project — the first project, in ascending
project-number order, containing the issue — not from aggregating all
matched projects; the `Estimate hrs` property is present (with exactly that
project's value) iff that project supplies a truthy `Estimate` custom
field, and is entirely omitted otherwise (never zeroed). -/
theorem estimate_from_first_project (issue : GitHubIssue)
    (notionRelations : NotionRelations) (queryProjects : List QueryProject) :
    lookupProp (getPropertiesFromIssueOrGithubProject issue notionRelations
        queryProjects) notionFields.EstimateHrs =
      (match getProject queryProjects issue.number with
       | some p =>
         match recordGet p.customFields "Estimate" with
         | some v => if v.truthy then some (propNumber v) else none
         | none => none
       | none => none) := by
  unfold getPropertiesFromIssueOrGithubProject
  cases hp : getProject queryProjects issue.number with
  | none => rfl
  | some p =>
    cases he : recordGet p.customFields "Estimate" with
    | none =>
      simp only [he]
      rfl
    | some v =>
      simp only [he]
      cases hv : v.truthy with
      | true => rfl
      | false => rfl

/-- Claim C7.  An issue whose url matches no existing mirror record is created
(exactly one create operation, carrying the computed property set) when the
issue is not closed, and produces no write operation at all when it is
closed; a reconciliation run over just that issue performs exactly the
loop body's operations. -/
theorem untracked_issue_create_or_skip (issuePages : List NotionPage)
    (notionRelations : NotionRelations) (queryProjects : List QueryProject)
    (issue : GitHubIssue)
    (hnew : (getTaskIssueUrls issuePages).contains issue.html_url = false) :
    ((issue.state == "CLOSED") = false →
      processIssue issuePages notionRelations queryProjects issue =
        [.create (getPropertiesFromIssueOrGithubProject issue notionRelations
          queryProjects)]) ∧
    (issue.state = "CLOSED" →
      processIssue issuePages notionRelations queryProjects issue = []) ∧
    createOrUpdateTasksInNotion issuePages notionRelations queryProjects [issue]
      = processIssue issuePages notionRelations queryProjects issue := by
  have hnotmem : issue.html_url ∉ getTaskIssueUrls issuePages := by
    simpa using hnew
  refine ⟨?_, ?_, ?_⟩
  · intro hopen
    have hne : issue.state ≠ "CLOSED" := by simpa using hopen
    unfold processIssue
    simp [hnotmem, hne]
  · intro hclosed
    unfold processIssue
    simp [hnotmem, hclosed]
  · simp [createOrUpdateTasksInNotion]

/-- Claim C7, witness: with an empty mirror, the open issue #42 yields exactly its
create operation and the closed issue #7 yields no operation. -/
theorem untracked_issue_create_or_skip_witness :
    processIssue [] relsA qpsA issOpen =
      [.create (getPropertiesFromIssueOrGithubProject issOpen relsA qpsA)] ∧
    processIssue [] relsA qpsA issClosed = [] := by
  have h1 := untracked_issue_create_or_skip [] relsA qpsA issOpen (by decide)
  have h2 := untracked_issue_create_or_skip [] relsA qpsA issClosed (by decide)
  exact ⟨h1.1 (by decide), h2.2.1 (by decide)⟩

/-- The push loop of `properties.person` equals a filterMap: matched
usernames contribute their Notion id, unmatched ones are dropped. -/
theorem person_foldl_eq (userRelations : List UserRelation) :
    ∀ (l : List String) (acc : List String),
      l.foldl (fun people u =>
        match userRelations.find? (fun r => r.githubUsername == u) with
        | some r => people ++ [r.notionUserId]
        | none => people) acc
      = acc ++ l.filterMap (fun u =>
          (userRelations.find? (fun r => r.githubUsername == u)).map
            (·.notionUserId)) := by
  intro l
  induction l with
  | nil => intro acc; simp
  | cons u us ih =>
    intro acc
    cases h : userRelations.find? (fun r => r.githubUsername == u) with
    | none =>
      simp only [List.foldl_cons, List.filterMap_cons, h, Option.map_none']
      exact ih acc
    | some r =>
      simp only [List.foldl_cons, List.filterMap_cons, h, Option.map_some']
      rw [ih (acc ++ [r.notionUserId]), List.append_assoc]
      rfl

/-- Claim C8.  Building the people and relation properties never fails on
unmatched data: the people payload is exactly the relation-table image of
the matched handles (assignee handles with no user-relation entry are
silently dropped), and a project key matching no project relation row
yields an empty relation list. -/
theorem unmatched_relations_degrade (githubUsernames : List String)
    (userRelations : List UserRelation) (projectKey : FieldValue)
    (notionProjects : List NotionProjectInfo)
    (hmiss : notionProjects.find?
      (fun p => projectKey == FieldValue.str p.projectKey) = none) :
    propPerson githubUsernames userRelations =
      .peopleUntyped (githubUsernames.filterMap (fun u =>
        (userRelations.find? (fun r => r.githubUsername == u)).map
          (·.notionUserId))) ∧
    propRelation projectKey notionProjects = .relation [] := by
  constructor
  · unfold propPerson
    rw [person_foldl_eq userRelations githubUsernames []]
    rfl
  · unfold propRelation
    rw [hmiss]

/-- Claim C8, witness: handle `ghost` has no relation row and is dropped; key
`NOPE` matches no project row and yields an empty relation. -/
theorem unmatched_relations_degrade_witness :
    propPerson ["alice", "ghost"] [⟨"alice", "u-1"⟩] = .peopleUntyped ["u-1"] ∧
    propRelation (.str "NOPE") [⟨"p-1", "KEY"⟩] = .relation [] := by
  have h := unmatched_relations_degrade ["alice", "ghost"] [⟨"alice", "u-1"⟩]
    (.str "NOPE") [⟨"p-1", "KEY"⟩] (by decide)
  exact ⟨h.1.trans (by decide), h.2⟩

/-- Claim C1, failing evaluation.  Reconciling `issOpen` a second time, against
the mirror record holding exactly what the first run wrote, still reports a
needed update and issues a write: the written status (and people) payloads
carry no `type` discriminator, so `extractComparableValue` canonicalizes
the target side to `''` while the fetched record's value-kind-tagged copy
canonicalizes to the stored option name / ids — the diff never stabilizes. -/
theorem second_run_diff_still_writes :
    needsNotionPageUpdate (roundTripProps targetC1) targetC1 = true ∧
    processIssue [pageC1] relsA qpsA issOpen = [.update "page-1" targetC1] := by
  exact ⟨by decide, by decide⟩

/-- With every write succeeding, the fallible loop performs exactly the
write trace of `createOrUpdateTasksInNotion` and does not abort: the
fallible model refines the pure trace model. -/
theorem runMirrorWrites_all_ok (issuePages : List NotionPage)
    (notionRelations : NotionRelations) (queryProjects : List QueryProject) :
    ∀ issues : List GitHubIssue,
      runMirrorWrites (fun _ => true) issuePages notionRelations queryProjects
        issues
      = (createOrUpdateTasksInNotion issuePages notionRelations queryProjects
          issues, false)
  | [] => rfl
  | issue :: rest => by
    unfold runMirrorWrites
    rw [runMirrorWrites_all_ok issuePages notionRelations queryProjects rest]
    simp [createOrUpdateTasksInNotion]

/-- Claim C9, counterexample: two untracked open issues; when every mirror write
fails, the run aborts at the first issue's create and no write for the
second issue is attempted, although with succeeding writes the very same
run performs both creates — one issue's write failure does abort the
processing of the remaining issues. -/
theorem write_failure_aborts_run_cex :
    runMirrorWrites (fun _ => false) [] relsA qpsA [issOpen, issOpen43]
      = ([], true) ∧
    runMirrorWrites (fun _ => true) [] relsA qpsA [issOpen, issOpen43]
      = ([.create (getPropertiesFromIssueOrGithubProject issOpen relsA qpsA),
          .create (getPropertiesFromIssueOrGithubProject issOpen43 relsA qpsA)],
         false) := by
  exact ⟨by decide, by decide⟩

/-- Claim C9, amended.  A failing mirror write aborts the run (the spec flags
this as the current gap): whenever some write for the first issue fails,
the performed writes are that issue's successful prefix, the run aborts,
and no operation for any later issue is performed. -/
theorem write_failure_aborts_run (wf : WriteOp → Bool)
    (issuePages : List NotionPage) (notionRelations : NotionRelations)
    (queryProjects : List QueryProject) (issue : GitHubIssue)
    (rest : List GitHubIssue)
    (hfail : (processIssue issuePages notionRelations queryProjects issue).all wf
      = false) :
    runMirrorWrites wf issuePages notionRelations queryProjects (issue :: rest)
      = ((processIssue issuePages notionRelations queryProjects issue).takeWhile wf,
         true) := by
  unfold runMirrorWrites
  simp [hfail]

/-- Claim C9, witness: the amended statement evaluated with all writes failing on
the two-issue run. -/
theorem write_failure_aborts_run_witness :
    runMirrorWrites (fun _ => false) [] relsA qpsA [issOpen, issOpen43]
      = ((processIssue [] relsA qpsA issOpen).takeWhile (fun _ => false),
         true) :=
  write_failure_aborts_run (fun _ => false) [] relsA qpsA issOpen [issOpen43]
    (by decide)

/-- The first element of a string list equal to `u` is at the length of the
`u`-free prefix. -/
theorem indexOf_append_cons (u : String) :
    ∀ (l1 : List String), (∀ x ∈ l1, x ≠ u) →
      ∀ l2, (l1 ++ u :: l2).indexOf u = l1.length := by
  intro l1
  induction l1 with
  | nil => intro _ l2; simp [List.indexOf_cons]
  | cons x xs ih =>
    intro h l2
    have hx : (x == u) = false :=
      beq_eq_false_iff_ne.mpr (h x (List.mem_cons_self x xs))
    simp [List.indexOf_cons, hx,
      ih (fun y hy => h y (List.mem_cons_of_mem _ hy)) l2]

/-- The loop body diffs and updates against the first mirror record whose
issue url matches, whatever records follow it. -/
theorem processIssue_first_match (pre suf : List NotionPage) (p : NotionPage)
    (notionRelations : NotionRelations) (queryProjects : List QueryProject)
    (issue : GitHubIssue)
    (hpre : ∀ q ∈ pre, taskIssueUrlOf q ≠ issue.html_url)
    (hp : taskIssueUrlOf p = issue.html_url) :
    processIssue (pre ++ p :: suf) notionRelations queryProjects issue =
      (if needsNotionPageUpdate p.properties
          (getPropertiesFromIssueOrGithubProject issue notionRelations
            queryProjects) = true
       then [.update p.id (getPropertiesFromIssueOrGithubProject issue
         notionRelations queryProjects)]
       else []) := by
  have hurls : getTaskIssueUrls (pre ++ p :: suf)
      = getTaskIssueUrls pre ++ issue.html_url :: getTaskIssueUrls suf := by
    simp [getTaskIssueUrls, hp]
  have hmem : issue.html_url ∈ getTaskIssueUrls (pre ++ p :: suf) := by
    rw [hurls]
    exact List.mem_append_right _ (List.mem_cons_self _ _)
  have hcontains : (getTaskIssueUrls (pre ++ p :: suf)).contains issue.html_url
      = true := by simpa using hmem
  have hpre' : ∀ x ∈ getTaskIssueUrls pre, x ≠ issue.html_url := by
    intro x hx
    rcases List.mem_map.mp hx with ⟨q, hq, rfl⟩
    exact hpre q hq
  have hidx : (getTaskIssueUrls (pre ++ p :: suf)).indexOf issue.html_url
      = pre.length := by
    rw [hurls, indexOf_append_cons issue.html_url (getTaskIssueUrls pre) hpre']
    simp [getTaskIssueUrls]
  have hget : (pre ++ p :: suf).get? pre.length = some p := by
    rw [List.get?_eq_getElem?, List.getElem?_append_right (Nat.le_refl _),
      Nat.sub_self]
    simp
  unfold processIssue
  simp only [hcontains, hidx, hget, if_true]

/-- Claim C10.  When several mirror records carry the issue's url, the loop body
diffs against — and, when a change is detected, updates — exactly the first
such record in mirror-fetch order; the records after the first match never
influence the diff and are never written (replacing them by anything leaves
the issued operations unchanged). -/
theorem duplicate_url_first_record_wins (pre suf suf' : List NotionPage)
    (p : NotionPage) (notionRelations : NotionRelations)
    (queryProjects : List QueryProject) (issue : GitHubIssue)
    (hpre : ∀ q ∈ pre, taskIssueUrlOf q ≠ issue.html_url)
    (hp : taskIssueUrlOf p = issue.html_url) :
    processIssue (pre ++ p :: suf) notionRelations queryProjects issue =
      (if needsNotionPageUpdate p.properties
          (getPropertiesFromIssueOrGithubProject issue notionRelations
            queryProjects) = true
       then [.update p.id (getPropertiesFromIssueOrGithubProject issue
         notionRelations queryProjects)]
       else []) ∧
    processIssue (pre ++ p :: suf') notionRelations queryProjects issue =
      processIssue (pre ++ p :: suf) notionRelations queryProjects issue := by
  refine ⟨processIssue_first_match pre suf p notionRelations queryProjects
    issue hpre hp, ?_⟩
  rw [processIssue_first_match pre suf p notionRelations queryProjects
    issue hpre hp,
    processIssue_first_match pre suf' p notionRelations queryProjects
    issue hpre hp]

/-- Claim C10, witness: with a non-matching record first, the tracked record for
issue #42 second, and a duplicate record with the same url third, the loop
updates only the second record, and dropping the duplicate changes
nothing. -/
theorem duplicate_url_first_record_wins_witness :
    processIssue ([pageOther] ++ pageC1 :: [pageDup]) relsA qpsA issOpen =
      (if needsNotionPageUpdate pageC1.properties
          (getPropertiesFromIssueOrGithubProject issOpen relsA qpsA) = true
       then [.update pageC1.id
         (getPropertiesFromIssueOrGithubProject issOpen relsA qpsA)]
       else []) ∧
    processIssue ([pageOther] ++ pageC1 :: []) relsA qpsA issOpen =
      processIssue ([pageOther] ++ pageC1 :: [pageDup]) relsA qpsA issOpen :=
  duplicate_url_first_record_wins [pageOther] [pageDup] [] pageC1 relsA qpsA
    issOpen (by decide) (by decide)

/-- Claim C3.  Status precedence rule 1: a closed issue derives status `Done`,
whatever its labels and whatever project data is matched, and the status
option written for it is named `Done`. -/
theorem closed_issue_status_is_done (issue : GitHubIssue)
    (project : Option ProjectData) (h : issue.state = "CLOSED") :
    getNotionStatusFromGithubIssue issue project = some (.str "Done") ∧
    statusName (propStatus (getNotionStatusFromGithubIssue issue project)) = "Done" := by
  unfold getNotionStatusFromGithubIssue
  simp [h, propStatus, statusName]

/-- Claim C3, witness: a concrete closed issue with a `blocked` label and a
matched project whose custom status is `In progress` still derives `Done`. -/
theorem closed_issue_status_is_done_witness :
    getNotionStatusFromGithubIssue issClosedBlocked
      (getProject qpsA issClosedBlocked.number) = some (.str "Done") ∧
    statusName (propStatus (getNotionStatusFromGithubIssue issClosedBlocked
      (getProject qpsA issClosedBlocked.number))) = "Done" :=
  closed_issue_status_is_done issClosedBlocked
    (getProject qpsA issClosedBlocked.number) (by decide)

/-- Claim C4, counterexample: for the open issue `issDup`, whose only label is
`Duplicate`, the status option written to the mirror is named `Discarded`,
not `Duplicate` as the claim states. -/
theorem duplicate_label_written_as_discarded_cex :
    statusName (propStatus (getNotionStatusFromGithubIssue issDup none))
      = "Discarded" ∧
    statusName (propStatus (getNotionStatusFromGithubIssue issDup none))
      ≠ "Duplicate" := by
  constructor
  · rfl
  · decide

/-- Claim C4, amended.  For every open issue carrying a label case-insensitively
equal to `duplicate` and none equal to `blocked`, the derived normalized
status is `Duplicate`, regardless of project data; but the status option
written to the mirror's status property is named `Discarded` (the
`properties.status` table maps `Duplicate` to `Discarded`). -/
theorem duplicate_label_status (issue : GitHubIssue) (project : Option ProjectData)
    (hopen : (issue.state == "CLOSED") = false)
    (hnb : issue.labels.any (fun l => strToLower l == "blocked") = false)
    (hd : issue.labels.any (fun l => strToLower l == "duplicate") = true) :
    getNotionStatusFromGithubIssue issue project = some (.str "Duplicate") ∧
    statusName (propStatus (getNotionStatusFromGithubIssue issue project))
      = "Discarded" := by
  unfold getNotionStatusFromGithubIssue
  simp [hopen, hnb, hd, propStatus, statusName]

/-- Claim C4, witness: the amended statement evaluated on the concrete issue
`issDup` (mixed-case label `Duplicate`). -/
theorem duplicate_label_status_witness :
    getNotionStatusFromGithubIssue issDup none = some (.str "Duplicate") ∧
    statusName (propStatus (getNotionStatusFromGithubIssue issDup none))
      = "Discarded" :=
  duplicate_label_status issDup none (by decide) (by decide) (by decide)

/-- Claim C5, counterexample: an open unlabelled issue matched to a project whose
custom `Status` is `Backlog`: the derived status is `Backlog` verbatim, but
the status option written to the mirror is named `Not started` — the value
is not passed through verbatim to the mirror even though a project custom
status is present. -/
theorem project_status_not_verbatim_cex :
    getNotionStatusFromGithubIssue issOpen (some pdBacklog)
      = some (.str "Backlog") ∧
    statusName (propStatus (getNotionStatusFromGithubIssue issOpen
      (some pdBacklog))) = "Not started" ∧
    ("Not started" : String) ≠ "Backlog" := by
  refine ⟨rfl, rfl, by decide⟩

/-- Claim C5, amended.  For every open issue with no `blocked`/`duplicate` label
whose matched project has a non-empty string custom `Status`, the status
rule engine passes that value through verbatim; the status option written
to the mirror, however, is the image of that value under the fixed
`properties.status` table (`In progress` ↦ `In progress`, `Done` ↦ `Done`,
`In review` ↦ `To be checked`, `Blocked` ↦ `Blocked`, `Duplicate` ↦
`Discarded`, anything else ↦ `Not started`); and when no project custom
status is present the written status is likewise `Not started`. -/
theorem project_status_passthrough (issue : GitHubIssue) (project : ProjectData)
    (s : String)
    (hopen : (issue.state == "CLOSED") = false)
    (hnb : issue.labels.any (fun l => strToLower l == "blocked") = false)
    (hnd : issue.labels.any (fun l => strToLower l == "duplicate") = false)
    (hstatus : recordGet project.customFields "Status" = some (.str s))
    (hne : s ≠ "") :
    getNotionStatusFromGithubIssue issue (some project) = some (.str s) ∧
    statusName (propStatus (getNotionStatusFromGithubIssue issue (some project)))
      = (if s = "In progress" then "In progress"
         else if s = "Done" then "Done"
         else if s = "In review" then "To be checked"
         else if s = "Blocked" then "Blocked"
         else if s = "Duplicate" then "Discarded"
         else "Not started") ∧
    statusName (propStatus (getNotionStatusFromGithubIssue issue none))
      = "Not started" := by
  have hder : getNotionStatusFromGithubIssue issue (some project) = some (.str s) := by
    unfold getNotionStatusFromGithubIssue
    simp [hopen, hnb, hnd, hstatus, FieldValue.truthy, hne]
  refine ⟨hder, ?_, ?_⟩
  · rw [hder]
    simp only [propStatus]
    split_ifs <;> rfl
  · unfold getNotionStatusFromGithubIssue
    simp [hopen, hnb, hnd, propStatus, statusName]

/-- Claim C5, witness: the amended statement evaluated on `issOpen` matched to the
`Backlog` project (written status `Not started`). -/
theorem project_status_passthrough_witness :
    getNotionStatusFromGithubIssue issOpen (some pdBacklog)
      = some (.str "Backlog") ∧
    statusName (propStatus (getNotionStatusFromGithubIssue issOpen
      (some pdBacklog)))
      = (if "Backlog" = "In progress" then "In progress"
         else if "Backlog" = "Done" then "Done"
         else if "Backlog" = "In review" then "To be checked"
         else if "Backlog" = "Blocked" then "Blocked"
         else if "Backlog" = "Duplicate" then "Discarded"
         else "Not started") ∧
    statusName (propStatus (getNotionStatusFromGithubIssue issOpen none))
      = "Not started" :=
  project_status_passthrough issOpen pdBacklog "Backlog" (by decide) (by decide)
    (by decide) (by decide) (by decide)

end GifNotion
